import Mathlib

/-!
# Verification of the `SearchQuery` builder of pubmed-client

The repository ships a Python binding for a biomedical-literature search
client. The core domain logic recoverable from the material is a query
builder (`SearchQuery`) that accumulates free-text terms and structured
filters (publication-date ranges, article types) under validation rules and
renders them into the query grammar of the search API.

The builder implementation itself lives in the compiled extension and is not
among the source files; it is therefore modelled here from the specification
(each such definition carries a doc comment starting `Modelled from the
spec:`), and the properties below are settled against that model.
-/

namespace PubmedClient

/-- Modelled from the spec: the two kinds of domain failures raised by the
builder, plus the numeric-conversion failure that the language-binding
boundary raises before domain validation runs (spec §7, §4.1 design note). -/
inductive QueryError where
  | invalidArgument (msg : String)
  | invalidState (msg : String)
  | overflow (msg : String)
deriving Repr, DecidableEq

/-- Whitespace removal on the left of a character list. -/
def ltrimData (cs : List Char) : List Char :=
  cs.dropWhile Char.isWhitespace

/-- Modelled from the spec: "trimming surrounding whitespace" — remove
whitespace characters from both ends of the string. -/
def strTrim (s : String) : String :=
  ⟨(ltrimData s.data).rdropWhile Char.isWhitespace⟩

/-- Modelled from the spec: a term is skipped when it is absent or trims to
empty ("emptiness test is on the trimmed form", spec §4.1). -/
def isBlank : Option String → Bool
  | none => true
  | some t => strTrim t == ""

/-- Modelled from the spec: the builder state — ordered `fragments` (raw
terms and pre-formatted filter expressions, insertion order significant) and
an optional result-size `limit` that never appears in the rendered query
(spec §3). -/
structure SearchQuery where
  fragments : List String
  limit : Option Nat
deriving Repr, DecidableEq

/-- Modelled from the spec: `SearchQuery()` creates an empty builder. -/
def emptyQuery : SearchQuery := ⟨[], none⟩

namespace SearchQuery

/-- Modelled from the spec: `add_term` — if the term is present and non-empty
after trimming, append the original (untrimmed) term to `fragments`;
otherwise silently ignore (spec §4.1). Python method name: `query`. -/
def add_term (q : SearchQuery) (term : Option String) : SearchQuery :=
  if isBlank term then q
  else { q with fragments := q.fragments ++ [term.getD ""] }

/-- Modelled from the spec: `add_terms` applies `add_term` to each element in
order; blank/absent elements are skipped individually (spec §4.1). Python
method name: `terms`. -/
def add_terms (q : SearchQuery) (terms : List (Option String)) : SearchQuery :=
  terms.foldl add_term q

/-- Modelled from the spec: the domain validator `set_limit` — `None` clears
the limit; `0` and values over `10000` fail with `InvalidArgument`; otherwise
the value is stored (spec §4.1). The parameter is the unsigned machine
integer the binding hands over, hence `Nat`. Python method name: `limit`. -/
def set_limit (q : SearchQuery) (l : Option Nat) : Except QueryError SearchQuery :=
  match l with
  | none => .ok { q with limit := none }
  | some n =>
    if n == 0 then .error (.invalidArgument "limit must be greater than 0")
    else if n > 10000 then .error (.invalidArgument "limit should not exceed 10,000")
    else .ok { q with limit := some n }

/-- Modelled from the spec: the Python-facing `limit` entry point. The
binding converts the Python integer to an unsigned machine integer before
the domain validator runs; a negative value fails that conversion with an
overflow error (spec §4.1 design note; test_limit_negative_raises_valueerror
documents the message). -/
def limit_py (q : SearchQuery) (l : Option Int) : Except QueryError SearchQuery :=
  match l with
  | none => set_limit q none
  | some n =>
    if n < 0 then .error (.overflow "can\x27t convert negative int to unsigned")
    else set_limit q (some n.toNat)

/-- Modelled from the spec: the `"<start>:<end>[pdat]"` date-range fragment
(spec §4.1, §6). -/
def yearFragment (s e : Nat) : String :=
  toString s ++ ":" ++ toString e ++ "[pdat]"

/-- Modelled from the spec: `published_between` — effective end year is the
given end year, else the sentinel `3000`; both bounds must lie in
`[1800, 3000]` and the start must not exceed the effective end; on success
append `"<start>:<end>[pdat]"` (spec §4.1). -/
def published_between (q : SearchQuery) (start_year : Nat) (end_year : Option Nat) :
    Except QueryError SearchQuery :=
  let eff := end_year.getD 3000
  if start_year < 1800 || start_year > 3000 || eff < 1800 || eff > 3000 then
    .error (.invalidArgument "year must be between 1800 and 3000")
  else if start_year > eff then
    .error (.invalidArgument "start year must not be greater than end year")
  else
    .ok { q with fragments := q.fragments ++ [yearFragment start_year eff] }

/-- Modelled from the spec: `published_after(year) ≡ published_between(year, None)`
(spec §4.1). -/
def published_after (q : SearchQuery) (year : Nat) : Except QueryError SearchQuery :=
  published_between q year none

/-- Modelled from the spec: `published_before(year) ≡ published_between(1900, year)`
with the fixed lower sentinel `1900` (spec §4.1). -/
def published_before (q : SearchQuery) (year : Nat) : Except QueryError SearchQuery :=
  published_between q 1900 (some year)

/-- Modelled from the spec: `published_in_year` validates the year against
`[1800, 3000]` and appends `"<year>[pdat]"` (spec §4.1). -/
def published_in_year (q : SearchQuery) (year : Nat) : Except QueryError SearchQuery :=
  if year < 1800 || year > 3000 then
    .error (.invalidArgument "year must be between 1800 and 3000")
  else
    .ok { q with fragments := q.fragments ++ [toString year ++ "[pdat]"] }

end SearchQuery

/-- Modelled from the spec: the seven canonical article-type names, in table
order (spec §4.1 canonical alias table). -/
def canonicalTypes : List String :=
  ["Clinical Trial", "Review", "Systematic Review", "Meta-Analysis",
   "Case Reports", "Randomized Controlled Trial", "Observational Study"]

/-- Modelled from the spec: the fixed, immutable alias table mapping
lowercased input names (canonical names plus the shorthand "RCT") to
canonical tag strings (spec §4.1). -/
def aliasTable : List (String × String) :=
  [("clinical trial", "Clinical Trial"),
   ("review", "Review"),
   ("systematic review", "Systematic Review"),
   ("meta-analysis", "Meta-Analysis"),
   ("case reports", "Case Reports"),
   ("randomized controlled trial", "Randomized Controlled Trial"),
   ("rct", "Randomized Controlled Trial"),
   ("observational study", "Observational Study")]

/-- Lower-casing of a string, character by character. -/
def lowerStr (s : String) : String :=
  ⟨s.data.map Char.toLower⟩

/-- Modelled from the spec: case-insensitive resolution of an input name
against the alias table — the lowercased input is looked up among the
lowercased keys (spec §4.1). -/
def resolveType (name : String) : Option String :=
  (aliasTable.find? (fun p => p.1 == lowerStr name)).map (fun p => p.2)

/-- Modelled from the spec: the `InvalidArgument` message for an unresolved
article-type name lists the supported canonical names
(spec §4.1; the test expects "Invalid article type.*Supported types"). -/
def invalidTypeMsg (name : String) : String :=
  "Invalid article type: " ++ name ++ ". Supported types: " ++
    String.intercalate ", " canonicalTypes

namespace SearchQuery

/-- Modelled from the spec: `article_type` resolves the name
case-insensitively; on success appends `"<CanonicalName>[pt]"`, on failure
fails with `InvalidArgument` listing the supported types (spec §4.1). -/
def article_type (q : SearchQuery) (name : String) : Except QueryError SearchQuery :=
  match resolveType name with
  | some c => .ok { q with fragments := q.fragments ++ [c ++ "[pt]"] }
  | none => .error (.invalidArgument (invalidTypeMsg name))

/-- Modelled from the spec: resolve every name to its `"<CanonicalName>[pt]"`
tag, failing the whole batch on the first unresolved name (spec §4.1). -/
def resolveTags : List String → Except QueryError (List String)
  | [] => .ok []
  | n :: rest =>
    match resolveType n with
    | none => .error (.invalidArgument (invalidTypeMsg n))
    | some c => (resolveTags rest).map (fun tags => (c ++ "[pt]") :: tags)

/-- Modelled from the spec: `article_types` — empty input is a no-op;
otherwise the resolved tags are joined with `" OR "` into one single
`fragments` entry (spec §4.1). -/
def article_types (q : SearchQuery) (names : List String) : Except QueryError SearchQuery :=
  if names.isEmpty then .ok q
  else
    (resolveTags names).map
      (fun tags => { q with fragments := q.fragments ++ [String.intercalate " OR " tags] })

/-- Modelled from the spec: rendering joins all fragments, in insertion
order, with a single space (spec §4.1). -/
def joinSp : List String → String
  | [] => ""
  | [f] => f
  | f :: rest => f ++ " " ++ joinSp rest

/-- Modelled from the spec: `build()` fails with `InvalidState` when no
fragments have been accumulated, else returns the space-joined fragments;
`limit` is never part of the rendered string (spec §4.1). -/
def build (q : SearchQuery) : Except QueryError String :=
  if q.fragments.isEmpty then
    .error (.invalidState "cannot build query: no search terms provided")
  else .ok (joinSp q.fragments)

end SearchQuery


/-! ## Sequences of term-adding calls -/

/-- A call in a sequence of `add_term`/`add_terms` invocations. -/
inductive TermOp where
  | one (t : Option String)
  | many (ts : List (Option String))

/-- Run a sequence of `add_term`/`add_terms` calls on a builder. -/
def applyTermOps (q : SearchQuery) : List TermOp → SearchQuery
  | [] => q
  | .one t :: rest => applyTermOps (q.add_term t) rest
  | .many ts :: rest => applyTermOps (q.add_terms ts) rest

/-- The elements supplied by a sequence of calls, in call order. -/
def opTerms : List TermOp → List (Option String)
  | [] => []
  | .one t :: rest => t :: opTerms rest
  | .many ts :: rest => ts ++ opTerms rest

/-- The non-blank elements of a list of optional terms, in order. -/
def keptTerms (l : List (Option String)) : List String :=
  l.filterMap (fun t => if isBlank t then none else some (t.getD ""))

theorem keptTerms_nil : keptTerms [] = [] := rfl

theorem keptTerms_cons (t : Option String) (l : List (Option String)) :
    keptTerms (t :: l) = (if isBlank t then [] else [t.getD ""]) ++ keptTerms l := by
  simp only [keptTerms, List.filterMap_cons]
  split <;> simp_all

theorem keptTerms_append (a b : List (Option String)) :
    keptTerms (a ++ b) = keptTerms a ++ keptTerms b := by
  simp [keptTerms, List.filterMap_append]

theorem add_term_fragments (q : SearchQuery) (t : Option String) :
    (q.add_term t).fragments = q.fragments ++ (if isBlank t then [] else [t.getD ""]) := by
  unfold SearchQuery.add_term
  split <;> simp_all

theorem add_term_limit (q : SearchQuery) (t : Option String) :
    (q.add_term t).limit = q.limit := by
  unfold SearchQuery.add_term
  split <;> simp

theorem add_terms_fragments (ts : List (Option String)) :
    ∀ q : SearchQuery, (q.add_terms ts).fragments = q.fragments ++ keptTerms ts := by
  induction ts with
  | nil => intro q; simp [SearchQuery.add_terms, keptTerms]
  | cons t rest ih =>
    intro q
    have h : q.add_terms (t :: rest) = (q.add_term t).add_terms rest := rfl
    rw [h, ih, add_term_fragments, keptTerms_cons, List.append_assoc]

theorem applyTermOps_fragments (ops : List TermOp) :
    ∀ q : SearchQuery, (applyTermOps q ops).fragments = q.fragments ++ keptTerms (opTerms ops) := by
  induction ops with
  | nil => intro q; simp [applyTermOps, opTerms, keptTerms]
  | cons op rest ih =>
    intro q
    cases op with
    | one t =>
      show (applyTermOps (q.add_term t) rest).fragments = _
      rw [ih, add_term_fragments]
      show _ = q.fragments ++ keptTerms (t :: opTerms rest)
      rw [keptTerms_cons, List.append_assoc]
    | many ts =>
      show (applyTermOps (q.add_terms ts) rest).fragments = _
      rw [ih, add_terms_fragments]
      show _ = q.fragments ++ keptTerms (ts ++ opTerms rest)
      rw [keptTerms_append, List.append_assoc]

/-- C1: for every sequence of `add_term`/`add_terms` calls on a fresh
builder, the accumulated fragments are exactly the non-blank supplied
elements in call order — blank or absent elements never appear — and when
anything at all was kept, `build()` returns them joined by single spaces. -/
theorem add_term_sequences_filter_and_order (ops : List TermOp) :
    (applyTermOps emptyQuery ops).fragments = keptTerms (opTerms ops) ∧
    (keptTerms (opTerms ops) ≠ [] →
      (applyTermOps emptyQuery ops).build =
        .ok (SearchQuery.joinSp (keptTerms (opTerms ops)))) := by
  have hfr := applyTermOps_fragments ops emptyQuery
  rw [show emptyQuery.fragments = [] from rfl, List.nil_append] at hfr
  refine ⟨hfr, fun hne => ?_⟩
  unfold SearchQuery.build
  rw [hfr]
  simp [List.isEmpty_iff, hne]

/-- Witness for C1 at a concrete call sequence. -/
theorem add_term_sequences_filter_and_order_witness :
    (applyTermOps emptyQuery
        [.one (some "covid-19"), .one none, .many [some "   ", some "vaccine", none]]).build =
      .ok "covid-19 vaccine" := by
  have h := add_term_sequences_filter_and_order
    [.one (some "covid-19"), .one none, .many [some "   ", some "vaccine", none]]
  exact (h.2 (by decide)).trans rfl

/-- C2: `build()` on a builder with no accumulated fragments fails with
`InvalidState` carrying the message "cannot build query: no search terms
provided", including when every supplied term was absent or blank. -/
theorem build_on_empty_invalid_state (q : SearchQuery) (ops : List TermOp)
    (hq : q.fragments = []) (hops : keptTerms (opTerms ops) = []) :
    q.build = .error (.invalidState "cannot build query: no search terms provided") ∧
    (applyTermOps emptyQuery ops).build =
      .error (.invalidState "cannot build query: no search terms provided") := by
  constructor
  · unfold SearchQuery.build
    rw [hq]
    rfl
  · have hfr := applyTermOps_fragments ops emptyQuery
    rw [show emptyQuery.fragments = [] from rfl, List.nil_append, hops] at hfr
    unfold SearchQuery.build
    rw [hfr]
    rfl

/-- Witness for C2: the fresh builder, and a builder fed only absent or
blank terms, both fail to build. -/
theorem build_on_empty_invalid_state_witness :
    emptyQuery.build = .error (.invalidState "cannot build query: no search terms provided") ∧
    (applyTermOps emptyQuery [.one none, .one (some ""), .one (some "   ")]).build =
      .error (.invalidState "cannot build query: no search terms provided") :=
  build_on_empty_invalid_state emptyQuery [.one none, .one (some ""), .one (some "   ")]
    rfl (by decide)

/-- Discriminator: is this builder result an `InvalidArgument` failure? -/
def isInvalidArgResult : Except QueryError SearchQuery → Bool
  | .error (.invalidArgument _) => true
  | _ => false

/-- C3 counterexample: a negative limit does not fail with `InvalidArgument`
— the binding boundary rejects it first with an overflow error (as
test_limit_negative_raises_valueerror documents). -/
theorem limit_negative_not_invalid_argument :
    (emptyQuery.add_term (some "cancer")).limit_py (some (-1)) =
      .error (.overflow "can\x27t convert negative int to unsigned") ∧
    isInvalidArgResult ((emptyQuery.add_term (some "cancer")).limit_py (some (-1))) = false :=
  ⟨rfl, rfl⟩

/-- C3 (amended): `set_limit` accepts exactly the integers in `[1, 10000]`
and stores the value; `0` and values over `10000` fail with
`InvalidArgument`; a negative value fails at the binding boundary with an
overflow error before the domain validator runs; `None` clears the limit;
and the string returned by `build()` is identical whatever the limit. -/
theorem set_limit_range_and_render (q : SearchQuery) (n : Nat) (m : Int) :
    (1 ≤ n ∧ n ≤ 10000 → q.limit_py (some (n : Int)) = .ok { q with limit := some n }) ∧
    (q.limit_py (some 0) = .error (.invalidArgument "limit must be greater than 0")) ∧
    (10000 < n → q.limit_py (some (n : Int)) =
      .error (.invalidArgument "limit should not exceed 10,000")) ∧
    (m < 0 → q.limit_py (some m) =
      .error (.overflow "can\x27t convert negative int to unsigned")) ∧
    (q.limit_py none = .ok { q with limit := none }) ∧
    (∀ l1 l2 : Option Nat,
      SearchQuery.build ⟨q.fragments, l1⟩ = SearchQuery.build ⟨q.fragments, l2⟩) := by
  refine ⟨?_, rfl, ?_, ?_, rfl, fun l1 l2 => rfl⟩
  · rintro ⟨h1, h2⟩
    simp only [SearchQuery.limit_py, SearchQuery.set_limit, Int.toNat_natCast]
    rw [if_neg (show ¬((n : Int) < 0) by omega)]
    rw [if_neg (show ¬((n == 0) = true) by simp only [beq_iff_eq]; omega)]
    rw [if_neg (show ¬(n > 10000) by omega)]
  · intro h
    simp only [SearchQuery.limit_py, SearchQuery.set_limit, Int.toNat_natCast]
    rw [if_neg (show ¬((n : Int) < 0) by omega)]
    rw [if_neg (show ¬((n == 0) = true) by simp only [beq_iff_eq]; omega)]
    rw [if_pos (show n > 10000 from h)]
  · intro h
    simp only [SearchQuery.limit_py]
    rw [if_pos h]

/-- Witness for the amended C3 at concrete limits. -/
theorem set_limit_range_and_render_witness :
    (emptyQuery.add_term (some "cancer")).limit_py (some 50) =
      .ok ⟨["cancer"], some 50⟩ ∧
    (emptyQuery.add_term (some "cancer")).limit_py (some 10001) =
      .error (.invalidArgument "limit should not exceed 10,000") := by
  have h1 := (set_limit_range_and_render (emptyQuery.add_term (some "cancer")) 50 (-1)).1
    ⟨by decide, by decide⟩
  have h2 := (set_limit_range_and_render (emptyQuery.add_term (some "cancer")) 10001
    (-1)).2.2.1 (by decide)
  exact ⟨h1.trans rfl, h2⟩

/-- C10: a negative limit is rejected at the language-binding boundary with
an overflow/conversion error, not with the domain `InvalidArgument` error. -/
theorem limit_negative_binding_overflow (q : SearchQuery) (n : Int) (h : n < 0) :
    q.limit_py (some n) = .error (.overflow "can\x27t convert negative int to unsigned") ∧
    ∀ msg, q.limit_py (some n) ≠ .error (.invalidArgument msg) := by
  have he : q.limit_py (some n) =
      .error (.overflow "can\x27t convert negative int to unsigned") := by
    simp only [SearchQuery.limit_py]
    rw [if_pos h]
  refine ⟨he, fun msg hc => ?_⟩
  rw [he] at hc
  exact QueryError.noConfusion (Except.error.inj hc)

/-- Witness for C10 at `limit(-1)` on a builder holding one term. -/
theorem limit_negative_binding_overflow_witness :
    (emptyQuery.add_term (some "covid-19")).limit_py (some (-1)) =
      .error (.overflow "can\x27t convert negative int to unsigned") :=
  (limit_negative_binding_overflow (emptyQuery.add_term (some "covid-19")) (-1) (by decide)).1

/-- Helper: in-range year bounds as a single proposition. -/
def yearsInRange (s eff : Nat) : Prop :=
  1800 ≤ s ∧ s ≤ 3000 ∧ 1800 ≤ eff ∧ eff ≤ 3000

theorem published_between_ok (q : SearchQuery) (s : Nat) (e? : Option Nat)
    (hin : yearsInRange s (e?.getD 3000)) (hle : s ≤ e?.getD 3000) :
    q.published_between s e? =
      .ok { q with fragments :=
              q.fragments ++ [SearchQuery.yearFragment s (e?.getD 3000)] } := by
  obtain ⟨h1, h2, h3, h4⟩ := hin
  simp only [SearchQuery.published_between]
  rw [if_neg (by simp only [Bool.or_eq_true, decide_eq_true_eq]; omega)]
  rw [if_neg (show ¬(s > e?.getD 3000) by omega)]

theorem published_between_year_error (q : SearchQuery) (s : Nat) (e? : Option Nat)
    (hout : ¬yearsInRange s (e?.getD 3000)) :
    q.published_between s e? =
      .error (.invalidArgument "year must be between 1800 and 3000") := by
  unfold yearsInRange at hout
  simp only [SearchQuery.published_between]
  rw [if_pos (by simp only [Bool.or_eq_true, decide_eq_true_eq]; omega)]

theorem published_between_order_error (q : SearchQuery) (s : Nat) (e? : Option Nat)
    (hin : yearsInRange s (e?.getD 3000)) (hgt : e?.getD 3000 < s) :
    q.published_between s e? =
      .error (.invalidArgument "start year must not be greater than end year") := by
  obtain ⟨h1, h2, h3, h4⟩ := hin
  simp only [SearchQuery.published_between]
  rw [if_neg (by simp only [Bool.or_eq_true, decide_eq_true_eq]; omega)]
  rw [if_pos (show s > e?.getD 3000 by omega)]

/-- C4: `published_between` takes the given end year (else the sentinel
`3000`) as the effective end; it fails with `InvalidArgument` ("year must be
between 1800 and 3000") unless both bounds lie in `[1800, 3000]`, fails with
`InvalidArgument` ("start year must not be greater than end year") when the
start exceeds the effective end, and on success appends exactly the fragment
`"<start>:<end>[pdat]"`. -/
theorem published_between_validation (q : SearchQuery) (s : Nat) (e? : Option Nat) :
    (¬yearsInRange s (e?.getD 3000) →
      q.published_between s e? =
        .error (.invalidArgument "year must be between 1800 and 3000")) ∧
    (yearsInRange s (e?.getD 3000) → e?.getD 3000 < s →
      q.published_between s e? =
        .error (.invalidArgument "start year must not be greater than end year")) ∧
    (yearsInRange s (e?.getD 3000) → s ≤ e?.getD 3000 →
      q.published_between s e? =
        .ok { q with fragments :=
                q.fragments ++ [SearchQuery.yearFragment s (e?.getD 3000)] }) ∧
    (SearchQuery.yearFragment s (e?.getD 3000) =
      toString s ++ ":" ++ toString (e?.getD 3000) ++ "[pdat]") :=
  ⟨published_between_year_error q s e?,
   published_between_order_error q s e?,
   published_between_ok q s e?,
   rfl⟩

/-- Witness for C4: a valid range, an out-of-range year, and an inverted
range, each at concrete inputs. -/
theorem published_between_validation_witness :
    (emptyQuery.add_term (some "cancer")).published_between 2020 (some 2023) =
      .ok ⟨["cancer", "2020:2023[pdat]"], none⟩ ∧
    emptyQuery.published_between 1799 none =
      .error (.invalidArgument "year must be between 1800 and 3000") ∧
    emptyQuery.published_between 2024 (some 2020) =
      .error (.invalidArgument "start year must not be greater than end year") := by
  refine ⟨?_, ?_, ?_⟩
  · exact ((published_between_validation (emptyQuery.add_term (some "cancer")) 2020
      (some 2023)).2.2.1 (by unfold yearsInRange; simp only [Option.getD_some]; omega)
      (by simp only [Option.getD_some]; omega)).trans rfl
  · exact (published_between_validation emptyQuery 1799 none).1
      (by unfold yearsInRange; simp only [Option.getD_none]; omega)
  · exact (published_between_validation emptyQuery 2024 (some 2020)).2.1
      (by unfold yearsInRange; simp only [Option.getD_some]; omega)
      (by simp only [Option.getD_some]; omega)

/-- C5: `published_after(year)` behaves identically to
`published_between(year, None)` and `published_before(year)` to
`published_between(1900, year)` — identical results, hence identical
validation failures — and in the valid cases they produce the fragments
`"<year>:3000[pdat]"` and `"1900:<year>[pdat]"` respectively. -/
theorem published_after_before_equiv (q : SearchQuery) (year : Nat) :
    q.published_after year = q.published_between year none ∧
    q.published_before year = q.published_between 1900 (some year) ∧
    (1800 ≤ year ∧ year ≤ 3000 →
      q.published_after year =
        .ok { q with fragments := q.fragments ++ [SearchQuery.yearFragment year 3000] }) ∧
    (1900 ≤ year ∧ year ≤ 3000 →
      q.published_before year =
        .ok { q with fragments := q.fragments ++ [SearchQuery.yearFragment 1900 year] }) := by
  refine ⟨rfl, rfl, fun h => ?_, fun h => ?_⟩
  · exact published_between_ok q year none
      (by unfold yearsInRange; simp only [Option.getD_none]; omega)
      (by simp only [Option.getD_none]; omega)
  · exact published_between_ok q 1900 (some year)
      (by unfold yearsInRange; simp only [Option.getD_some]; omega)
      (by simp only [Option.getD_some]; omega)

/-- Witness for C5 at `year = 2020`. -/
theorem published_after_before_equiv_witness :
    (emptyQuery.add_term (some "treatment")).published_after 2020 =
      .ok ⟨["treatment", "2020:3000[pdat]"], none⟩ ∧
    (emptyQuery.add_term (some "epidemiology")).published_before 2020 =
      .ok ⟨["epidemiology", "1900:2020[pdat]"], none⟩ := by
  refine ⟨?_, ?_⟩
  · exact ((published_after_before_equiv (emptyQuery.add_term (some "treatment")) 2020).2.2.1
      (by omega)).trans rfl
  · exact ((published_after_before_equiv (emptyQuery.add_term (some "epidemiology")) 2020).2.2.2
      (by omega)).trans rfl

/-- C6: `article_type` resolves its argument case-insensitively against the
fixed alias table (the seven canonical names plus the shorthand "RCT"); on
success it appends exactly `"<CanonicalName>[pt]"`, and on an unresolved
name it fails with `InvalidArgument` whose message lists the supported
canonical names. -/
theorem article_type_resolution (q : SearchQuery) (name n2 : String) :
    (lowerStr name = lowerStr n2 → resolveType name = resolveType n2) ∧
    (∀ c, resolveType name = some c →
      q.article_type name = .ok { q with fragments := q.fragments ++ [c ++ "[pt]"] }) ∧
    (resolveType name = none →
      q.article_type name = .error (.invalidArgument (invalidTypeMsg name))) ∧
    (canonicalTypes = ["Clinical Trial", "Review", "Systematic Review", "Meta-Analysis",
      "Case Reports", "Randomized Controlled Trial", "Observational Study"]) ∧
    (∀ c ∈ canonicalTypes, resolveType c = some c) ∧
    (resolveType "RCT" = some "Randomized Controlled Trial") ∧
    (invalidTypeMsg name = "Invalid article type: " ++ name ++ ". Supported types: " ++
      String.intercalate ", " canonicalTypes) := by
  refine ⟨fun h => ?_, fun c hc => ?_, fun hn => ?_, rfl, by decide, by decide, rfl⟩
  · unfold resolveType
    rw [h]
  · simp only [SearchQuery.article_type, hc]
  · simp only [SearchQuery.article_type, hn]

/-- Witness for C6: lower-case and canonical-case lookups, the RCT
shorthand, and a rejected name, at concrete inputs. -/
theorem article_type_resolution_witness :
    (emptyQuery.add_term (some "diabetes")).article_type "clinical trial" =
      .ok ⟨["diabetes", "Clinical Trial[pt]"], none⟩ ∧
    (emptyQuery.add_term (some "treatment")).article_type "RCT" =
      .ok ⟨["treatment", "Randomized Controlled Trial[pt]"], none⟩ ∧
    (emptyQuery.add_term (some "topic")).article_type "Invalid Type" =
      .error (.invalidArgument (invalidTypeMsg "Invalid Type")) := by
  refine ⟨?_, ?_, ?_⟩
  · exact ((article_type_resolution (emptyQuery.add_term (some "diabetes"))
      "clinical trial" "x").2.1 "Clinical Trial" (by decide)).trans rfl
  · exact ((article_type_resolution (emptyQuery.add_term (some "treatment"))
      "RCT" "x").2.1 "Randomized Controlled Trial" (by decide)).trans rfl
  · exact (article_type_resolution (emptyQuery.add_term (some "topic"))
      "Invalid Type" "x").2.2.1 (by decide)

theorem resolveTags_ok (names : List String)
    (h : ∀ m ∈ names, (resolveType m).isSome) :
    SearchQuery.resolveTags names =
      .ok (names.map (fun m => ((resolveType m).getD "") ++ "[pt]")) := by
  induction names with
  | nil => rfl
  | cons n rest ih =>
    obtain ⟨c, hc⟩ := Option.isSome_iff_exists.mp (h n (List.mem_cons_self n rest))
    have hrest := ih (fun m hm => h m (List.mem_cons_of_mem n hm))
    simp only [SearchQuery.resolveTags, hc, hrest, Except.map, List.map_cons, Option.getD_some]

theorem resolveTags_first_error (pre post : List String) (bad : String)
    (h : ∀ m ∈ pre, (resolveType m).isSome) (hb : resolveType bad = none) :
    SearchQuery.resolveTags (pre ++ bad :: post) =
      .error (.invalidArgument (invalidTypeMsg bad)) := by
  induction pre with
  | nil => simp only [List.nil_append, SearchQuery.resolveTags, hb]
  | cons p rest ih =>
    obtain ⟨c, hc⟩ := Option.isSome_iff_exists.mp (h p (List.mem_cons_self p rest))
    have hrest := ih (fun m hm => h m (List.mem_cons_of_mem p hm))
    simp only [List.cons_append, SearchQuery.resolveTags, hc, List.append_eq, hrest, Except.map]

/-- C7: `article_types` on an empty list is a no-op; on a non-empty list it
resolves every name exactly as `article_type` does, fails the whole call on
the first unresolved name, and appends the resolved `"<CanonicalName>[pt]"`
tags joined by `" OR "` as one single fragments entry. -/
theorem article_types_combination (q : SearchQuery) (names pre post : List String)
    (bad : String) :
    (q.article_types [] = .ok q) ∧
    (names ≠ [] → (∀ m ∈ names, (resolveType m).isSome) →
      q.article_types names =
        .ok { q with fragments := q.fragments ++
          [String.intercalate " OR "
            (names.map (fun m => ((resolveType m).getD "") ++ "[pt]"))] }) ∧
    ((∀ m ∈ pre, (resolveType m).isSome) → resolveType bad = none →
      q.article_types (pre ++ bad :: post) =
        .error (.invalidArgument (invalidTypeMsg bad))) := by
  refine ⟨rfl, fun hne hall => ?_, fun hpre hb => ?_⟩
  · simp only [SearchQuery.article_types]
    rw [if_neg (by simp only [List.isEmpty_eq_true]; exact hne)]
    rw [resolveTags_ok names hall]
    rfl
  · simp only [SearchQuery.article_types]
    rw [if_neg (by simp only [List.isEmpty_eq_true]; simp)]
    rw [resolveTags_first_error pre post bad hpre hb]
    rfl

/-- Witness for C7: a successful OR-combination, the empty no-op, and a
batch failing on its unresolved element, at concrete inputs. -/
theorem article_types_combination_witness :
    (emptyQuery.add_term (some "treatment")).article_types ["RCT", "Meta-Analysis"] =
      .ok ⟨["treatment", "Randomized Controlled Trial[pt] OR Meta-Analysis[pt]"], none⟩ ∧
    (emptyQuery.add_term (some "research")).article_types [] =
      .ok (emptyQuery.add_term (some "research")) ∧
    (emptyQuery.add_term (some "topic")).article_types ["Review", "Invalid Type"] =
      .error (.invalidArgument (invalidTypeMsg "Invalid Type")) := by
  refine ⟨?_, ?_, ?_⟩
  · exact ((article_types_combination (emptyQuery.add_term (some "treatment"))
      ["RCT", "Meta-Analysis"] [] [] "x").2.1 (by decide) (by decide)).trans rfl
  · exact (article_types_combination (emptyQuery.add_term (some "research"))
      [] [] [] "x").1
  · exact (article_types_combination (emptyQuery.add_term (some "topic"))
      [] ["Review"] [] "Invalid Type").2.2 (by decide) (by decide)

/-! ## Failure atomicity -/

/-- A mutating builder call, as issued from Python. -/
inductive BuilderOp where
  | term (t : Option String)
  | terms (ts : List (Option String))
  | setLimit (l : Option Int)
  | between (s : Nat) (e : Option Nat)
  | after (y : Nat)
  | before (y : Nat)
  | inYear (y : Nat)
  | aType (name : String)
  | aTypes (names : List String)

/-- The result a call computes from the current state (the infallible term
operations are wrapped in `.ok`). -/
def applyOp (q : SearchQuery) : BuilderOp → Except QueryError SearchQuery
  | .term t => .ok (q.add_term t)
  | .terms ts => .ok (q.add_terms ts)
  | .setLimit l => q.limit_py l
  | .between s e => q.published_between s e
  | .after y => q.published_after y
  | .before y => q.published_before y
  | .inYear y => q.published_in_year y
  | .aType name => q.article_type name
  | .aTypes names => q.article_types names

/-- Modelled from the spec: the builder object that the caller still holds
after a call — the new state on success, the untouched previous state when
the call raised ("never partially mutates state", spec §7). -/
def runOp (q : SearchQuery) (op : BuilderOp) : SearchQuery :=
  match applyOp q op with
  | .ok q2 => q2
  | .error _ => q

/-- Run a whole sequence of calls, keeping the pre-call state across
rejected calls. -/
def runOps (q : SearchQuery) (ops : List BuilderOp) : SearchQuery :=
  ops.foldl runOp q

/-- C8: a call that fails leaves the builder — `fragments` and `limit` —
exactly as it was before the call, and every subsequent operation sequence
(and its rendering) behaves as if the failing call had never been made. -/
theorem rejected_call_preserves_state (q : SearchQuery) (op : BuilderOp) (e : QueryError)
    (h : applyOp q op = .error e) :
    runOp q op = q ∧
    (∀ ops : List BuilderOp, runOps (runOp q op) ops = runOps q ops) ∧
    (∀ ops : List BuilderOp, (runOps (runOp q op) ops).build = (runOps q ops).build) := by
  have hr : runOp q op = q := by
    unfold runOp
    rw [h]
  exact ⟨hr, fun ops => by rw [hr], fun ops => by rw [hr]⟩

/-- Witness for C8: a rejected `limit(0)` and a rejected article type leave
the builder intact and later calls unaffected, at concrete inputs. -/
theorem rejected_call_preserves_state_witness :
    runOp (emptyQuery.add_term (some "cancer")) (.setLimit (some 0)) =
      emptyQuery.add_term (some "cancer") ∧
    runOps (runOp (emptyQuery.add_term (some "cancer")) (.aType "Invalid Type"))
        [.term (some "vaccine")] =
      runOps (emptyQuery.add_term (some "cancer")) [.term (some "vaccine")] := by
  refine ⟨?_, ?_⟩
  · exact (rejected_call_preserves_state (emptyQuery.add_term (some "cancer"))
      (.setLimit (some 0)) (.invalidArgument "limit must be greater than 0") rfl).1
  · exact (rejected_call_preserves_state (emptyQuery.add_term (some "cancer"))
      (.aType "Invalid Type") (.invalidArgument (invalidTypeMsg "Invalid Type")) rfl).2.1
      [.term (some "vaccine")]

/-! ## Whitespace discipline of rendering -/

/-- Does the rendered string start with a whitespace character? -/
def hasLeadingWs (s : String) : Bool :=
  match s.data with
  | [] => false
  | c :: _ => c.isWhitespace

/-- Does the rendered string end with a whitespace character? -/
def hasTrailingWs (s : String) : Bool :=
  match s.data.getLast? with
  | none => false
  | some c => c.isWhitespace

/-- The first character, if any, is not whitespace. -/
def headNotWs : List Char → Bool
  | [] => true
  | c :: _ => !c.isWhitespace

/-- The last character, if any, is not whitespace. -/
def lastNotWs : List Char → Bool
  | [] => true
  | [c] => !c.isWhitespace
  | _ :: c :: rest => lastNotWs (c :: rest)

/-- No two consecutive characters are both whitespace. -/
def noDoubledWs : List Char → Bool
  | [] => true
  | [_] => true
  | a :: b :: rest => !(a.isWhitespace && b.isWhitespace) && noDoubledWs (b :: rest)

/-- C9 counterexample: `add_term` stores the original untrimmed term, so a
stored term with surrounding whitespace surfaces it in `build()`'s output —
here the output has leading whitespace. -/
theorem build_can_expose_untrimmed_whitespace :
    (emptyQuery.add_term (some " covid")).build = .ok " covid" ∧
    hasLeadingWs " covid" = true :=
  ⟨rfl, by decide⟩

theorem length_dropWhile_le (p : Char → Bool) (l : List Char) :
    (l.dropWhile p).length ≤ l.length := by
  induction l with
  | nil => simp
  | cons a l ih =>
    rw [List.dropWhile_cons]
    split
    · exact Nat.le_trans ih (Nat.le_succ _)
    · exact Nat.le_refl _

theorem dropWhile_length_eq (p : Char → Bool) (l : List Char)
    (h : (l.dropWhile p).length = l.length) : l.dropWhile p = l := by
  cases l with
  | nil => rfl
  | cons a l =>
    rw [List.dropWhile_cons] at h ⊢
    split at h
    · have hle := length_dropWhile_le p l
      simp only [List.length_cons] at h
      omega
    · next hp => rw [if_neg hp]

theorem rdropWhile_length_le (p : Char → Bool) (l : List Char) :
    (l.rdropWhile p).length ≤ l.length := by
  have h1 := length_dropWhile_le p l.reverse
  simpa [List.rdropWhile] using h1

theorem rdropWhile_length_eq (p : Char → Bool) (l : List Char)
    (h : (l.rdropWhile p).length = l.length) : l.rdropWhile p = l := by
  unfold List.rdropWhile at h ⊢
  have h2 : (l.reverse.dropWhile p).length = l.reverse.length := by
    simp only [List.length_reverse] at h ⊢
    simpa using h
  rw [dropWhile_length_eq p l.reverse h2]
  exact List.reverse_reverse l

theorem strTrim_eq_self_split (f : String) (h : strTrim f = f) :
    f.data.dropWhile Char.isWhitespace = f.data ∧
    f.data.rdropWhile Char.isWhitespace = f.data := by
  have hdata : (f.data.dropWhile Char.isWhitespace).rdropWhile Char.isWhitespace = f.data := by
    have hd := congrArg String.data h
    simpa [strTrim, ltrimData] using hd
  have h1 := length_dropWhile_le Char.isWhitespace f.data
  have h2 := rdropWhile_length_le Char.isWhitespace (f.data.dropWhile Char.isWhitespace)
  have h3 := congrArg List.length hdata
  have hd : f.data.dropWhile Char.isWhitespace = f.data :=
    dropWhile_length_eq Char.isWhitespace f.data (by omega)
  rw [hd] at hdata
  exact ⟨hd, hdata⟩

theorem headNotWs_of_dropWhile_self (l : List Char)
    (h : l.dropWhile Char.isWhitespace = l) : headNotWs l = true := by
  cases l with
  | nil => rfl
  | cons c cs =>
    rw [List.dropWhile_cons] at h
    by_cases hw : c.isWhitespace
    · rw [if_pos hw] at h
      have hlen := congrArg List.length h
      have hle := length_dropWhile_le Char.isWhitespace cs
      simp only [List.length_cons] at hlen
      exfalso
      omega
    · simp [headNotWs, hw]

theorem lastNotWs_of_rdropWhile_self (l : List Char)
    (h : l.rdropWhile Char.isWhitespace = l) : lastNotWs l = true := by
  rw [List.rdropWhile_eq_self_iff] at h
  induction l with
  | nil => rfl
  | cons c cs ih =>
    cases cs with
    | nil =>
      have hc := h (List.cons_ne_nil c [])
      simp only [List.getLast] at hc
      simp [lastNotWs, hc]
    | cons d ds =>
      show lastNotWs (d :: ds) = true
      refine ih (fun hl => ?_)
      have hc := h (List.cons_ne_nil c (d :: ds))
      rwa [List.getLast_cons hl] at hc

theorem data_ne_nil_of_ne_empty (f : String) (h : f ≠ "") : f.data ≠ [] := by
  intro hd
  apply h
  have hf : f = ⟨f.data⟩ := rfl
  rw [hf, hd]

theorem headNotWs_append (l m : List Char) (hl : l ≠ []) :
    headNotWs (l ++ m) = headNotWs l := by
  cases l with
  | nil => exact absurd rfl hl
  | cons c cs => rfl

theorem lastNotWs_cons_of_ne_nil (a : Char) (l : List Char) (hl : l ≠ []) :
    lastNotWs (a :: l) = lastNotWs l := by
  cases l with
  | nil => exact absurd rfl hl
  | cons c cs => rfl

theorem lastNotWs_append (l m : List Char) (hm : m ≠ []) :
    lastNotWs (l ++ m) = lastNotWs m := by
  induction l with
  | nil => rfl
  | cons a l ih =>
    rw [List.cons_append,
      lastNotWs_cons_of_ne_nil a (l ++ m) (fun hc => hm (List.append_eq_nil.mp hc).2), ih]

theorem nd_space_cons (m : List Char) (hh : headNotWs m = true)
    (hm : noDoubledWs m = true) : noDoubledWs (' ' :: m) = true := by
  cases m with
  | nil => rfl
  | cons c cs =>
    show (!(' '.isWhitespace && c.isWhitespace) && noDoubledWs (c :: cs)) = true
    simp only [headNotWs, Bool.not_eq_true'] at hh
    simp [hh, hm]

theorem nd_append_space (l m : List Char) (hl : noDoubledWs l = true)
    (hlast : lastNotWs l = true) (hm : noDoubledWs (' ' :: m) = true) :
    noDoubledWs (l ++ ' ' :: m) = true := by
  induction l with
  | nil => simpa using hm
  | cons a l ih =>
    cases l with
    | nil =>
      show (!(a.isWhitespace && ' '.isWhitespace) && noDoubledWs (' ' :: m)) = true
      simp only [lastNotWs, Bool.not_eq_true'] at hlast
      simp [hlast, hm]
    | cons b l2 =>
      show (!(a.isWhitespace && b.isWhitespace) && noDoubledWs ((b :: l2) ++ ' ' :: m)) = true
      have h1 : (!(a.isWhitespace && b.isWhitespace)) = true ∧ noDoubledWs (b :: l2) = true := by
        simpa [noDoubledWs, Bool.and_eq_true] using hl
      have h2 : lastNotWs (b :: l2) = true := hlast
      rw [Bool.and_eq_true]
      exact ⟨h1.1, ih h1.2 h2⟩

theorem joinSp_clean (fs : List String) (hne : fs ≠ [])
    (hfr : ∀ f ∈ fs, f.data ≠ [] ∧ headNotWs f.data = true ∧ lastNotWs f.data = true ∧
      noDoubledWs f.data = true) :
    (SearchQuery.joinSp fs).data ≠ [] ∧
    headNotWs (SearchQuery.joinSp fs).data = true ∧
    lastNotWs (SearchQuery.joinSp fs).data = true ∧
    noDoubledWs (SearchQuery.joinSp fs).data = true := by
  induction fs with
  | nil => exact absurd rfl hne
  | cons f fs ih =>
    cases fs with
    | nil => exact hfr f (List.mem_cons_self f [])
    | cons g fs2 =>
      obtain ⟨hfne, hfhead, hflast, hfnd⟩ := hfr f (List.mem_cons_self _ _)
      obtain ⟨hJne, hJhead, hJlast, hJnd⟩ :=
        ih (List.cons_ne_nil g fs2) (fun x hx => hfr x (List.mem_cons_of_mem f hx))
      have hdata : (SearchQuery.joinSp (f :: g :: fs2)).data =
          (f.data ++ [' ']) ++ (SearchQuery.joinSp (g :: fs2)).data := rfl
      rw [List.append_assoc, List.singleton_append] at hdata
      rw [hdata]
      refine ⟨fun hc => hfne (List.append_eq_nil.mp hc).1, ?_, ?_, ?_⟩
      · rw [headNotWs_append _ _ hfne]
        exact hfhead
      · rw [lastNotWs_append _ _ (List.cons_ne_nil _ _),
          lastNotWs_cons_of_ne_nil _ _ hJne]
        exact hJlast
      · exact nd_append_space _ _ hfnd hflast (nd_space_cons _ hJhead hJnd)

theorem hasLeadingWs_false_of_head (s : String) (h : headNotWs s.data = true) :
    hasLeadingWs s = false := by
  unfold hasLeadingWs
  cases hd : s.data with
  | nil => rfl
  | cons c cs =>
    rw [hd] at h
    simp only [headNotWs, Bool.not_eq_true'] at h
    simp [h]

theorem hasTrailingWs_false_of_last (s : String) (h : lastNotWs s.data = true) :
    hasTrailingWs s = false := by
  unfold hasTrailingWs
  generalize hd : s.data = l
  rw [hd] at h
  clear hd
  induction l with
  | nil => rfl
  | cons c cs ih =>
    cases cs with
    | nil =>
      simp only [lastNotWs, Bool.not_eq_true'] at h
      simp [h]
    | cons d ds =>
      rw [List.getLast?_cons_cons]
      exact ih h

/-- C9 (amended): the joining itself introduces exactly one single space
between consecutive fragments and nothing at the ends, so whenever every
stored fragment is non-empty, trimmed, and free of doubled whitespace, the
successful `build()` output has no leading whitespace, no trailing
whitespace, and no two consecutive whitespace characters. (Unconditional
absence of leading/trailing whitespace fails, because `add_term` stores the
original untrimmed term — see the counterexample.) -/
theorem build_whitespace_discipline (q : SearchQuery)
    (hne : q.fragments ≠ [])
    (hfr : ∀ f ∈ q.fragments, strTrim f = f ∧ f ≠ "" ∧ noDoubledWs f.data = true) :
    q.build = .ok (SearchQuery.joinSp q.fragments) ∧
    hasLeadingWs (SearchQuery.joinSp q.fragments) = false ∧
    hasTrailingWs (SearchQuery.joinSp q.fragments) = false ∧
    noDoubledWs (SearchQuery.joinSp q.fragments).data = true ∧
    (∀ f g rest, SearchQuery.joinSp (f :: g :: rest) =
      f ++ " " ++ SearchQuery.joinSp (g :: rest)) := by
  have hclean := joinSp_clean q.fragments hne (fun f hf => by
    obtain ⟨h1, h2, h3⟩ := hfr f hf
    have hsplit := strTrim_eq_self_split f h1
    exact ⟨data_ne_nil_of_ne_empty f h2, headNotWs_of_dropWhile_self _ hsplit.1,
      lastNotWs_of_rdropWhile_self _ hsplit.2, h3⟩)
  refine ⟨?_, hasLeadingWs_false_of_head _ hclean.2.1,
    hasTrailingWs_false_of_last _ hclean.2.2.1, hclean.2.2.2, fun f g rest => rfl⟩
  unfold SearchQuery.build
  rw [if_neg (by simp only [List.isEmpty_eq_true]; exact hne)]

/-- Witness for the amended C9 on a concrete three-fragment builder. -/
theorem build_whitespace_discipline_witness :
    SearchQuery.build ⟨["covid-19", "vaccine", "2020:2024[pdat]"], some 50⟩ =
      .ok "covid-19 vaccine 2020:2024[pdat]" ∧
    hasLeadingWs "covid-19 vaccine 2020:2024[pdat]" = false ∧
    hasTrailingWs "covid-19 vaccine 2020:2024[pdat]" = false ∧
    noDoubledWs "covid-19 vaccine 2020:2024[pdat]".data = true := by
  have h := build_whitespace_discipline ⟨["covid-19", "vaccine", "2020:2024[pdat]"], some 50⟩
    (by simp) (by decide)
  exact ⟨h.1.trans rfl, h.2.1, h.2.2.1, h.2.2.2.1⟩

end PubmedClient
